import Mathlib

/-!
Verification of the telegram_bot channel-monitoring core (HypeDuke/osint3).

Shallow embedding of the Python sources:
  - `email_templates_file.py` (`BotFilter.apply_filter`)
  - `channel_search.py` (`ChannelSearcher.initial_search`)
  - `realtime_listener.py` (`RealtimeListener.setup_channels`,
    `RealtimeListener.handle_new_message`)
  - `monitor.py` (`TelegramMonitor.save_state`, `TelegramMonitor._load_state`)

Python strings are modelled as `List Char`; Python dicts with int keys as
association lists; a Python function that may raise is modelled with an
explicit `raised`-style result. Remote I/O (Telethon calls) is modelled by an
environment record of pure functions, and each embedded operation additionally
returns a trace of the externally visible effects (fetches, sleeps, emails,
state saves) so that claims about "no search performed" or "persists before
the filter runs" are statable.
-/

/-- Python string, modelled as its character list. -/
abbrev Str := List Char

/-- ASCII lower-casing of one character, as Python `str.lower` acts on ASCII. -/
def lowerChar (c : Char) : Char :=
  if c.toNat ≥ 65 ∧ c.toNat ≤ 90 then Char.ofNat (c.toNat + 32) else c

/-- Python `s.lower()`. -/
def pyLower (s : Str) : Str := s.map lowerChar

/-- Python substring test `needle in hay` (true for the empty needle). -/
def pyIn (needle : Str) : Str → Bool
  | [] => needle.isEmpty
  | c :: cs => needle.isPrefixOf (c :: cs) || pyIn needle cs

/-- Python `hay.startswith(needle)`. -/
def pyStartsWith (hay needle : Str) : Bool := needle.isPrefixOf hay

/-- Python `hay.endswith(needle)`. -/
def pyEndsWith (hay needle : Str) : Bool := needle.reverse.isPrefixOf hay.reverse

/-- Characters stripped by Python `str.strip()`. -/
def isSpaceChar (c : Char) : Bool :=
  c = ' ' || c = '\t' || c = '\n' || c = '\r'

/-- Python `s.strip()`. -/
def pyStrip (s : Str) : Str :=
  ((s.dropWhile isSpaceChar).reverse.dropWhile isSpaceChar).reverse

/-- Helper for `pySplitComma`: accumulates the current field (reversed). -/
def splitCommaAux : Str → Str → List Str
  | [], cur => [cur.reverse]
  | c :: cs, cur =>
    if c = ',' then cur.reverse :: splitCommaAux cs [] else splitCommaAux cs (c :: cur)

/-- Python `s.split(',')` (note `"".split(',') == ['']`). -/
def pySplitComma (s : Str) : List Str := splitCommaAux s []

/-- The `value` field of a filter configuration: a string or a list of strings
(`filter_config.get('value', '')` defaults a missing value to `''`, which is
represented as `vstr []`). -/
inductive FilterValue where
  | vstr (s : Str)
  | vlist (l : List Str)
  deriving DecidableEq

/-- Python truthiness of the filter value (`if not filter_value`). -/
def FilterValue.truthy : FilterValue → Bool
  | .vstr s => !s.isEmpty
  | .vlist l => !l.isEmpty

/-- Keyword extraction in `BotFilter.apply_filter`: a list is used verbatim, a
string is split on commas and each piece stripped. -/
def FilterValue.keywords : FilterValue → List Str
  | .vstr s => (pySplitComma s).map pyStrip
  | .vlist l => l

/-- A filter configuration dict `{type, value}`; `ftype = none` models a dict
with no `'type'` key (`.get('type')` returns `None`). -/
structure FilterConfig where
  ftype : Option Str
  value : FilterValue
  deriving DecidableEq

/-- Result of a Python call that returns a `bool` or raises. -/
inductive PyBool where
  | val (b : Bool)
  | raised
  deriving DecidableEq

/-- Models Python `re.search(pattern, text, flags)` restricted to LITERAL
patterns (no regex metacharacters): the pattern matches somewhere in the text
iff it occurs as a substring, case-insensitively when the ignore-case flag is
set. The source call site (`email_templates_file.py` line 37) always passes
`re.IGNORECASE`. -/
def reSearchLiteral (pattern text : Str) (ignoreCase : Bool) : Bool :=
  if ignoreCase then pyIn (pyLower pattern) (pyLower text) else pyIn pattern text

/-- Embedding of `BotFilter.apply_filter(message_text, filter_config)`
(`email_templates_file.py` lines 10-41). `message_text = none` models Python
`None`; calling `.lower()` on it (or passing it to `re.search`) raises, which
is the `PyBool.raised` outcome. A list-valued pattern handed to `re.search`
also raises. -/
def apply_filter (message_text : Option Str) (filter_config : Option FilterConfig) : PyBool :=
  match filter_config with
  | none => .val true
  | some fc =>
    let ftype := fc.ftype.getD "contains".data
    if !fc.value.truthy then .val true
    else
      let keywords := fc.value.keywords
      if ftype = "contains".data then
        match message_text with
        | none => .raised
        | some t => .val (keywords.any fun k => pyIn (pyLower k) (pyLower t))
      else if ftype = "contains_all".data then
        match message_text with
        | none => .raised
        | some t => .val (keywords.all fun k => pyIn (pyLower k) (pyLower t))
      else if ftype = "starts_with".data then
        match message_text with
        | none => .raised
        | some t => .val (keywords.any fun k => pyStartsWith (pyLower t) (pyLower k))
      else if ftype = "ends_with".data then
        match message_text with
        | none => .raised
        | some t => .val (keywords.any fun k => pyEndsWith (pyLower t) (pyLower k))
      else if ftype = "regex".data then
        match message_text with
        | none => .raised
        | some t =>
          match fc.value with
          | .vstr p => .val (reSearchLiteral p t true)
          | .vlist _ => .raised
      else if ftype = "not_contains".data then
        match message_text with
        | none => .raised
        | some t => .val (!(keywords.any fun k => pyIn (pyLower k) (pyLower t)))
      else .val true

/-- Case-insensitive occurrence of `k` in `t`, the matching notion the spec
uses for keyword filters. -/
def occursCI (k t : Str) : Bool := pyIn (pyLower k) (pyLower t)

/-- A Telegram message as the monitoring core uses it: its id, its formatted
date string, and its optional text (`none` models Python `None`; `some []`
models the empty string, which is falsy like `None` in the `if not
message.text` checks). -/
structure Msg where
  id : Nat
  date : Str
  text : Option Str
  deriving DecidableEq

/-- Python truthiness of `message.text` (`None` and `''` are both falsy). -/
def textTruthy : Option Str → Bool
  | none => false
  | some s => !s.isEmpty

/-- One channel configuration dict from `channels.json`; optional fields model
keys possibly absent from the dict. -/
structure ChannelConfig where
  username : Str
  name : Option Str
  filter : Option FilterConfig
  search_limit : Option Nat
  template : Option Str
  email_subject : Option Str
  deriving DecidableEq

/-- Lookup in a Python dict with `int` keys, modelled as an association list. -/
def lookupA {α : Type} : List (Int × α) → Int → Option α
  | [], _ => none
  | (k, v) :: rest, key => if k = key then some v else lookupA rest key

/-- Assignment `d[key] = v` in a Python dict with `int` keys. -/
def insertA {α : Type} : List (Int × α) → Int → α → List (Int × α)
  | [], key, v => [(key, v)]
  | (k, w) :: rest, key, v =>
    if k = key then (key, v) :: rest else (k, w) :: insertA rest key v

/-- The persisted monitor state: `state['initialized_channels']` (a Python
list of channel ids) and `state['last_message_ids']` (a dict from either id
encoding of a channel to the last processed message id). -/
structure BotState where
  initialized : List Int
  cursors : List (Int × Nat)
  deriving DecidableEq

/-- The fresh state `_load_state` builds when no valid state file exists. -/
def freshState : BotState := ⟨[], []⟩

/-- The event-stream id of a channel (`-1000000000000 - channel_id`,
`channel_search.py` line 60 and `realtime_listener.py` line 62). -/
def eventIdOf (cid : Nat) : Int := -1000000000000 - (cid : Int)

/-- A live new-message event: `event.chat_id` and `event.message`. -/
structure Event where
  chat_id : Int
  message : Msg
  deriving DecidableEq

/-- Result of one `handle_new_message` call: the state afterwards, the number
of notification emails handed to the sink, and the list of state snapshots at
each `save_state_callback()` invocation. -/
structure HandleResult where
  state : BotState
  emails : Nat
  saves : List BotState
  deriving DecidableEq

/-- Embedding of `RealtimeListener.handle_new_message`
(`realtime_listener.py` lines 324-407). `cmap` is `self.channels_map`.
An exception raised by `apply_filter` is caught by the surrounding
`try/except` after the cursor update and save have already happened, so the
`raised` outcome coincides with the filtered-out outcome. -/
def handle_new_message (cmap : List (Int × ChannelConfig)) (ev : Event) (st : BotState) :
    HandleResult :=
  let cid := ev.chat_id
  let msg := ev.message
  match lookupA cmap cid with
  | none => ⟨st, 0, []⟩
  | some config =>
    let skip : Bool :=
      match lookupA st.cursors cid with
      | some c => decide (msg.id ≤ c)
      | none => false
    if skip then ⟨st, 0, []⟩
    else
      let st1 : BotState := { st with cursors := insertA st.cursors cid msg.id }
      if !textTruthy msg.text then ⟨st1, 0, [st1]⟩
      else
        match apply_filter msg.text config.filter with
        | .val true => ⟨st1, 1, [st1]⟩
        | .val false => ⟨st1, 0, [st1]⟩
        | .raised => ⟨st1, 0, [st1]⟩

/-- Outcome of one `iter_messages(entity, limit=…, search=keyword)` iteration:
it yields all its messages, or yields a first portion and then raises
`FloodWaitError(seconds)`, or yields a first portion and then raises some
other exception. -/
inductive FetchOutcome where
  | ok (msgs : List Msg)
  | flood (fetched : List Msg) (seconds : Nat)
  | fail (fetched : List Msg)
  deriving DecidableEq

/-- The remote platform and connection as seen by one embedded call: pure
functions standing for the Telethon client. `resolve` is
`get_entity(username).id` (`none` = the call raised), `search` is
`iter_messages(entity, limit, search=kw)`, `recent` is
`get_messages(entity, limit=50)`, `latest` is `get_messages(entity, limit=1)`
(`none` = empty list), `connected` is the result of
`ensure_connected_callback()`, and `isChannel`/`permOk`/`probe` drive
`_verify_membership` (`probe = none` = `get_messages` raised). -/
structure Env where
  connected : Bool
  resolve : Str → Option Nat
  search : Nat → Str → Nat → FetchOutcome
  recent : Nat → List Msg
  latest : Nat → Option Msg
  isChannel : Nat → Bool
  permOk : Nat → Bool
  probe : Nat → Option (List Msg)

/-- Username cleaning in `initial_search`/`setup_channels`: strip one leading
`@`. -/
def cleanUsername (u : Str) : Str :=
  match u with
  | '@' :: rest => rest
  | _ => u

/-- Keyword extraction in `initial_search` (`channel_search.py` lines 67-74):
keywords are taken from the filter value only when the filter type is
`contains` or `contains_all`. -/
def extractSearchKeywords (filter : Option FilterConfig) : List Str :=
  match filter with
  | none => []
  | some fc =>
    if fc.ftype = some "contains".data ∨ fc.ftype = some "contains_all".data then
      match fc.value with
      | .vstr s => (pySplitComma s).map pyStrip
      | .vlist l => l
    else []

/-- One message of a keyword search result stream (`channel_search.py` lines
99-106): it is kept iff it has truthy text, its id was not already matched,
and `apply_filter` accepts it; only then is its id added to
`seen_message_ids`. In this call context `apply_filter` cannot raise: the
filter type is `contains`/`contains_all` and the text is a string. -/
def stepMsg (fc : Option FilterConfig) (acc : List Msg × List Nat) (m : Msg) :
    List Msg × List Nat :=
  if textTruthy m.text && !acc.2.contains m.id
      && decide (apply_filter m.text fc = PyBool.val true) then
    (acc.1 ++ [m], acc.2 ++ [m.id])
  else acc

/-- Folds `stepMsg` over the messages one fetch yielded. -/
def processMsgs (fc : Option FilterConfig) (acc : List Msg × List Nat) (msgs : List Msg) :
    List Msg × List Nat :=
  msgs.foldl (stepMsg fc) acc

/-- Accumulator of the per-keyword loop: matched messages, seen ids, the
keywords actually handed to `iter_messages`, and the flood-wait sleeps
performed (in seconds, in order). -/
structure KwAcc where
  matched : List Msg
  seen : List Nat
  fetches : List Str
  sleeps : List Nat
  deriving DecidableEq

/-- Embedding of the per-keyword loop of `initial_search` (`channel_search.py`
lines 84-113). A lost connection skips the keyword (`continue`); a
`FloodWaitError` keeps the messages already yielded, sleeps for exactly the
signalled seconds, and falls through to the next keyword; any other exception
keeps the yielded messages and continues with the next keyword. -/
def runKeywords (env : Env) (cid : Nat) (limit : Nat) (fc : Option FilterConfig) :
    List Str → KwAcc → KwAcc
  | [], acc => acc
  | kw :: rest, acc =>
    if env.connected then
      let acc1 : KwAcc := { acc with fetches := acc.fetches ++ [kw] }
      match env.search cid kw limit with
      | .ok msgs =>
        let p := processMsgs fc (acc1.matched, acc1.seen) msgs
        runKeywords env cid limit fc rest { acc1 with matched := p.1, seen := p.2 }
      | .flood fetched secs =>
        let p := processMsgs fc (acc1.matched, acc1.seen) fetched
        runKeywords env cid limit fc rest
          { acc1 with matched := p.1, seen := p.2, sleeps := acc1.sleeps ++ [secs] }
      | .fail fetched =>
        let p := processMsgs fc (acc1.matched, acc1.seen) fetched
        runKeywords env cid limit fc rest { acc1 with matched := p.1, seen := p.2 }
    else
      runKeywords env cid limit fc rest acc

/-- The no-keyword branch of `initial_search` (`channel_search.py` lines
118-131): filter the 50 most recent messages; here `apply_filter` CAN raise
(for example a `regex` filter whose value is a list), and the exception
propagates to the outer handler, so the result is optional. -/
def processRecent (fc : Option FilterConfig) : List Msg → Option (List Msg)
  | [] => some []
  | m :: rest =>
    if textTruthy m.text then
      match apply_filter m.text fc with
      | .raised => none
      | .val true => (processRecent fc rest).map (m :: ·)
      | .val false => processRecent fc rest
    else processRecent fc rest

/-- Stable descending insertion by date string, matching
`matched_messages.sort(key=lambda x: x['date'], reverse=True)`. -/
def insertDateDesc (m : Msg) : List Msg → List Msg
  | [] => [m]
  | x :: xs =>
    if x.date < m.date then m :: x :: xs else x :: insertDateDesc m xs

/-- Sorts matched messages newest-first (stable, as Python `list.sort`). -/
def sortDateDesc (l : List Msg) : List Msg :=
  l.foldl (fun acc m => insertDateDesc m acc) []

/-- Trace of the externally visible effects of one `initial_search` call. -/
structure SearchTrace where
  fetches : List Str
  recentFetch : Bool
  latestFetch : Bool
  sleeps : List Nat
  emails : Nat
  deriving DecidableEq

/-- The all-empty trace: no remote search, no sleep, no email. -/
def SearchTrace.quiet : SearchTrace := ⟨[], false, false, [], 0⟩

/-- Result of one `initial_search` call. -/
structure SearchResult where
  ret : Option Nat
  state : BotState
  trace : SearchTrace
  deriving DecidableEq

/-- Embedding of `ChannelSearcher.initial_search` (`channel_search.py` lines
25-167). Return value `none` models returning Python `None` (connection
failure, or an exception reaching the outer handler). The state is mutated
only on the successful path: cursors under both id encodings from the latest
message (when one exists), then the channel id appended to
`initialized_channels`. -/
def initial_search (env : Env) (config : ChannelConfig) (st : BotState) : SearchResult :=
  if !env.connected then ⟨none, st, SearchTrace.quiet⟩
  else
    match env.resolve (cleanUsername config.username) with
    | none => ⟨none, st, SearchTrace.quiet⟩
    | some cid =>
      if (cid : Int) ∈ st.initialized then ⟨some cid, st, SearchTrace.quiet⟩
      else
        let limit := config.search_limit.getD 1000
        let kws := extractSearchKeywords config.filter
        let run : Option (List Msg × SearchTrace) :=
          if !kws.isEmpty then
            let acc := runKeywords env cid limit config.filter kws ⟨[], [], [], []⟩
            some (sortDateDesc acc.matched, ⟨acc.fetches, false, false, acc.sleeps, 0⟩)
          else
            match processRecent config.filter (env.recent cid) with
            | none => none
            | some matched => some (matched, ⟨[], true, false, [], 0⟩)
        match run with
        | none => ⟨none, st, ⟨[], true, false, [], 0⟩⟩
        | some (matched, tr0) =>
          let emails := if matched.isEmpty then 0 else 1
          let st1 : BotState :=
            match env.latest cid with
            | some m =>
              { st with cursors :=
                  insertA (insertA st.cursors (cid : Int) m.id) (eventIdOf cid) m.id }
            | none => st
          let st2 : BotState := { st1 with initialized := st1.initialized ++ [(cid : Int)] }
          ⟨some cid, st2, { tr0 with latestFetch := true, emails := emails }⟩

/-- Embedding of `RealtimeListener._verify_membership` (`realtime_listener.py`
lines 105-129): for a `Channel` entity, success of `get_permissions` verifies
membership; otherwise a one-message read probe verifies it when it returns a
non-empty list (an empty list falls off the end of the Python function, which
returns `None`, falsy); a raising probe denies access. Non-`Channel` entities
are accepted. -/
def verify_membership (env : Env) (cid : Nat) : Bool :=
  if env.isChannel cid then
    if env.permOk cid then true
    else
      match env.probe cid with
      | none => false
      | some msgs => !msgs.isEmpty
  else true

/-- Result of `setup_channels`: the channel lookup map (keyed under both id
encodings), the verified entity ids in order, and the boolean the method
returns. -/
structure SetupResult where
  cmap : List (Int × ChannelConfig)
  entities : List Nat
  ok : Bool
  deriving DecidableEq

/-- One iteration of the `setup_channels` loop (`realtime_listener.py` lines
45-86): resolve the username (an exception skips the config), verify
membership, and on success register the config in `channels_map` under BOTH
the positive channel id and the derived event id, and record the entity. -/
def setupStep (env : Env) (acc : List (Int × ChannelConfig) × List Nat)
    (config : ChannelConfig) : List (Int × ChannelConfig) × List Nat :=
  match env.resolve (cleanUsername config.username) with
  | none => acc
  | some cid =>
    if verify_membership env cid then
      (insertA (insertA acc.1 (cid : Int) config) (eventIdOf cid) config,
       acc.2 ++ [cid])
    else acc

/-- Embedding of `RealtimeListener.setup_channels` (`realtime_listener.py`
lines 30-103): folds `setupStep` over the configured channels; the method
returns `True` iff at least one entity was stored. -/
def setup_channels (env : Env) (configs : List ChannelConfig) : SetupResult :=
  let r := configs.foldl (setupStep env) ([], [])
  ⟨r.1, r.2, !r.2.isEmpty⟩


/-- The path constant `STATE_FILE` of `monitor.py`. -/
def STATE_FILE : Str := "sessions/monitor_state.pkl".data

/-- Filesystem operations `save_state` can issue, in order. -/
inductive FileOp where
  | makedirs (path : Str)
  | openWrite (path : Str)
  | writeData (path : Str) (data : List Int)
  | renameFile (src dst : Str)
  deriving DecidableEq

/-- Serialized cursor entries: each pair flattened to key then value. -/
def encodeCursors (cs : List (Int × Nat)) : List Int :=
  cs.flatMap (fun p => [p.1, (p.2 : Int)])

/-- Payload of the pickled state: the length of `initialized_channels`, the
channel ids, then the flattened cursors. -/
def encodePayload (st : BotState) : List Int :=
  ((st.initialized.length : Int) :: st.initialized) ++ encodeCursors st.cursors

/-- Models `pickle.dump(self.state, f)` as a length-prefixed integer encoding;
the length header stands for pickle's framing (a truncated pickle stream
raises on load). -/
def serialize (st : BotState) : List Int :=
  ((encodePayload st).length : Int) :: encodePayload st

/-- Inverse of `encodeCursors`. -/
def decodeCursors : List Int → Option (List (Int × Nat))
  | [] => some []
  | [_] => none
  | k :: v :: rest =>
    if 0 ≤ v then (decodeCursors rest).map (fun cs => (k, v.toNat) :: cs) else none

/-- Inverse of `encodePayload`. -/
def decodePayload (l : List Int) : Option BotState :=
  match l with
  | [] => none
  | n :: rest =>
    if 0 ≤ n ∧ n.toNat ≤ rest.length then
      match decodeCursors (rest.drop n.toNat) with
      | some cs => some ⟨rest.take n.toNat, cs⟩
      | none => none
    else none

/-- Models `pickle.load`: checks the framing header, then decodes; any
mismatch (in particular a truncated blob) raises, modelled as `none`. -/
def deserialize (bytes : List Int) : Option BotState :=
  match bytes with
  | [] => none
  | len :: rest => if (rest.length : Int) = len then decodePayload rest else none

/-- The filesystem operations of one `TelegramMonitor.save_state` call
(`monitor.py` lines 106-113): make the directory, open the state file for
writing (truncating it), and write the whole pickled state into it. There is
no temporary file and no rename. -/
def save_state_ops (st : BotState) : List FileOp :=
  [FileOp.makedirs "sessions".data,
   FileOp.openWrite STATE_FILE,
   FileOp.writeData STATE_FILE (serialize st)]

/-- Whether a filesystem operation is a rename onto the given target path. -/
def isRenameTo (target : Str) (op : FileOp) : Bool :=
  match op with
  | .renameFile _ dst => decide (dst = target)
  | _ => false

/-- The atomic write-to-temp-then-rename mechanism the spec requires, read off
the spec's words: some operation of the save renames onto the state file (a
necessary condition for any rename-based atomic replacement). -/
def usesTempRename (target : Str) (ops : List FileOp) : Bool :=
  ops.any (isRenameTo target)

/-- Embedding of `TelegramMonitor._load_state` (`monitor.py` lines 93-104):
a missing file, or a blob that fails to deserialize, yields the fresh empty
state (the bare `except: pass`). -/
def load_state (file : Option (List Int)) : BotState :=
  match file with
  | none => freshState
  | some bytes =>
    match deserialize bytes with
    | some st => st
    | none => freshState

/-- One state-mutating operation of the monitoring core: a backfill call
(`initial_search`) or a live event (`handle_new_message`). -/
inductive Op where
  | search (env : Env) (config : ChannelConfig)
  | live (cmap : List (Int × ChannelConfig)) (ev : Event)

/-- The state after one operation. -/
def applyOp (st : BotState) : Op → BotState
  | .search env config => (initial_search env config st).state
  | .live cmap ev => (handle_new_message cmap ev st).state

/-- The state after a sequence of operations. -/
def applyOps (st : BotState) : List Op → BotState
  | [] => st
  | op :: rest => applyOps (applyOp st op) rest

/-- Cursor monotonicity between two states: every stored cursor persists with
a value at least as large. -/
def cursorsLE (st st' : BotState) : Prop :=
  ∀ k c, lookupA st.cursors k = some c →
    ∃ c', lookupA st'.cursors k = some c' ∧ c ≤ c'

/-- The claim's platform assumption, per operation: message ids within a
channel are non-decreasing over time, so the channel's current latest message
id is at least every cursor previously recorded for that channel (under
either id encoding). Live events need no assumption: `handle_new_message`
guards the cursor update itself. -/
def OpValid (st : BotState) : Op → Prop
  | .search env config =>
    ∀ cid m, env.resolve (cleanUsername config.username) = some cid →
      env.latest cid = some m →
      (∀ c, lookupA st.cursors (cid : Int) = some c → c ≤ m.id) ∧
      (∀ c, lookupA st.cursors (eventIdOf cid) = some c → c ≤ m.id)
  | .live _ _ => True

/-- A sequence of operations each valid in the state it runs in. -/
inductive ValidSeq : BotState → List Op → Prop where
  | nil (st : BotState) : ValidSeq st []
  | cons {st : BotState} {op : Op} {ops : List Op} :
      OpValid st op → ValidSeq (applyOp st op) ops → ValidSeq st (op :: ops)

/-- The flood-wait sleeps one fetch outcome mandates: exactly one sleep of the
signalled duration on `FloodWaitError`, none otherwise. -/
def floodSleeps : FetchOutcome → List Nat
  | .flood _ s => [s]
  | _ => []

/-- A sample latest message used by concrete environments. -/
def msgA : Msg := ⟨42, "2024-01-02 03:04:05".data, some "t".data⟩

/-- Concrete environment: channel `alpha` resolves to id 7, searches return
nothing, the latest message is `msgA`. -/
def envA : Env :=
  ⟨true, fun u => if u = "alpha".data then some 7 else none,
   fun _ _ _ => .ok [], fun _ => [], fun _ => some msgA,
   fun _ => true, fun _ => true, fun _ => some []⟩

/-- Concrete environment: channel `beta` resolves to id 9 and searching the
keyword `a` hits a 7-second flood wait after yielding nothing. -/
def envB : Env :=
  ⟨true, fun u => if u = "beta".data then some 9 else none,
   fun _ kw _ => if kw = "a".data then .flood [] 7 else .ok [],
   fun _ => [], fun _ => some msgA,
   fun _ => true, fun _ => true, fun _ => some []⟩

/-- Concrete config for channel `alpha` with a one-keyword contains filter. -/
def cfgA : ChannelConfig :=
  ⟨"@alpha".data, none, some ⟨some "contains".data, .vlist ["x".data]⟩, none, none, none⟩

/-- Concrete config for channel `beta` with keywords `a` and `b`. -/
def cfgB : ChannelConfig :=
  ⟨"beta".data, none, some ⟨some "contains".data, .vlist ["a".data, "b".data]⟩,
   none, none, none⟩

/-- Concrete config for channel `gamma` whose filter matches only `zzz`. -/
def cfgC : ChannelConfig :=
  ⟨"gamma".data, none, some ⟨some "contains".data, .vlist ["zzz".data]⟩, none, none, none⟩

/-- A channels map monitoring one event-stream chat id. -/
def cmapC : List (Int × ChannelConfig) := [(-1000000000005, cfgC)]

/-- A state in which channel id 5 is initialized with cursor 50 under its
event-stream key. -/
def stC : BotState := ⟨[5], [(-1000000000005, 50)]⟩

/-- A live event whose message id 40 is at or below the stored cursor 50. -/
def evOld : Event := ⟨-1000000000005, ⟨40, "2024-01-01 00:00:00".data, some "hello".data⟩⟩

/-- A live event whose message id 60 exceeds the stored cursor 50 and whose
text does not match `cfgC`'s filter. -/
def evNew : Event := ⟨-1000000000005, ⟨60, "2024-01-03 00:00:00".data, some "hello".data⟩⟩

theorem lookupA_insertA_self {α : Type} (m : List (Int × α)) (k : Int) (v : α) :
    lookupA (insertA m k v) k = some v := by
  induction m with
  | nil => simp [insertA, lookupA]
  | cons p rest ih =>
    rcases p with ⟨k', v'⟩
    by_cases h : k' = k
    · subst h
      simp [insertA, lookupA]
    · simp [insertA, lookupA, h, ih]

theorem lookupA_insertA_ne {α : Type} (m : List (Int × α)) {k key : Int} (v : α)
    (h : key ≠ k) : lookupA (insertA m k v) key = lookupA m key := by
  induction m with
  | nil => simp [insertA, lookupA, Ne.symm h]
  | cons p rest ih =>
    rcases p with ⟨k', v'⟩
    by_cases hk : k' = k
    · subst hk
      simp [insertA, lookupA, Ne.symm h]
    · simp [insertA, lookupA, hk, ih]

theorem natCast_ne_eventIdOf (a b : Nat) : (a : Int) ≠ eventIdOf b := by
  simp only [eventIdOf]
  omega

theorem eventIdOf_inj {a b : Nat} (h : eventIdOf a = eventIdOf b) : a = b := by
  simp only [eventIdOf] at h
  omega

theorem pyIn_nil (h : Str) : pyIn [] h = true := by
  induction h with
  | nil => rfl
  | cons c cs ih => simp [pyIn, List.isPrefixOf, ih]

theorem apply_filter_contains_eq (t : Str) (kws : List Str) (hk : kws ≠ []) :
    apply_filter (some t) (some ⟨some "contains".data, .vlist kws⟩) =
      .val (kws.any fun k => occursCI k t) := by
  cases kws with
  | nil => exact absurd rfl hk
  | cons k ks => rfl

theorem apply_filter_contains_all_eq (t : Str) (kws : List Str) (hk : kws ≠ []) :
    apply_filter (some t) (some ⟨some "contains_all".data, .vlist kws⟩) =
      .val (kws.all fun k => occursCI k t) := by
  cases kws with
  | nil => exact absurd rfl hk
  | cons k ks => rfl

theorem apply_filter_not_contains_eq (t : Str) (kws : List Str) (hk : kws ≠ []) :
    apply_filter (some t) (some ⟨some "not_contains".data, .vlist kws⟩) =
      .val (!(kws.any fun k => occursCI k t)) := by
  cases kws with
  | nil => exact absurd rfl hk
  | cons k ks => rfl

theorem apply_filter_regex_eq (p t : Str) :
    apply_filter (some t) (some ⟨some "regex".data, .vstr p⟩) =
      .val (pyIn (pyLower p) (pyLower t)) := by
  cases p with
  | nil => simp [apply_filter, FilterValue.truthy, pyLower, pyIn_nil]
  | cons c cs => rfl

/-- C5: for non-empty text and a non-empty keyword list, the `contains` filter
accepts iff some keyword occurs case-insensitively in the text, the
`contains_all` filter accepts iff every keyword does, and the `not_contains`
filter returns the exact Boolean negation of the `contains` result. -/
theorem filter_keyword_semantics (t : Str) (kws : List Str) (ht : t ≠ []) (hk : kws ≠ []) :
    (apply_filter (some t) (some ⟨some "contains".data, .vlist kws⟩) = .val true ↔
      ∃ k ∈ kws, occursCI k t = true) ∧
    (apply_filter (some t) (some ⟨some "contains_all".data, .vlist kws⟩) = .val true ↔
      ∀ k ∈ kws, occursCI k t = true) ∧
    (∀ b, apply_filter (some t) (some ⟨some "contains".data, .vlist kws⟩) = .val b →
      apply_filter (some t) (some ⟨some "not_contains".data, .vlist kws⟩) = .val (!b)) := by
  refine ⟨?_, ?_, ?_⟩
  · rw [apply_filter_contains_eq t kws hk]
    simp [List.any_eq_true]
  · rw [apply_filter_contains_all_eq t kws hk]
    simp [List.all_eq_true]
  · intro b hb
    rw [apply_filter_contains_eq t kws hk] at hb
    rw [apply_filter_not_contains_eq t kws hk]
    cases hb
    rfl

/-- Witness for `filter_keyword_semantics` at text `data breach` and keywords
`breach`, `leak`. -/
theorem filter_keyword_semantics_witness :
    (apply_filter (some "data BREACH".data)
        (some ⟨some "contains".data, .vlist ["breach".data, "leak".data]⟩) = .val true ↔
      ∃ k ∈ ["breach".data, "leak".data], occursCI k "data BREACH".data = true) ∧
    (apply_filter (some "data BREACH".data)
        (some ⟨some "contains_all".data, .vlist ["breach".data, "leak".data]⟩) = .val true ↔
      ∀ k ∈ ["breach".data, "leak".data], occursCI k "data BREACH".data = true) ∧
    (∀ b, apply_filter (some "data BREACH".data)
        (some ⟨some "contains".data, .vlist ["breach".data, "leak".data]⟩) = .val b →
      apply_filter (some "data BREACH".data)
        (some ⟨some "not_contains".data, .vlist ["breach".data, "leak".data]⟩) = .val (!b)) :=
  filter_keyword_semantics "data BREACH".data ["breach".data, "leak".data]
    (by decide) (by decide)

/-- C6 counterexample: with a recognized filter kind and non-empty terms, a
missing (`None`) text makes `apply_filter` raise (`None.lower()`), it does not
return `True`. -/
theorem filter_missing_text_counterexample :
    apply_filter none (some ⟨some "contains".data, .vstr "breach".data⟩) = .raised ∧
    ¬ (apply_filter none (some ⟨some "contains".data, .vstr "breach".data⟩) = .val true) := by
  decide

/-- C6 amended: a missing filter config, or an empty/missing `value`, is
pass-through `True` for every text argument including a missing one; but with
non-empty terms and a recognized kind, a missing text raises instead of
passing through. -/
theorem filter_passthrough :
    (∀ mt, apply_filter mt none = .val true) ∧
    (∀ mt ty, apply_filter mt (some ⟨ty, .vstr []⟩) = .val true) ∧
    (∀ mt ty, apply_filter mt (some ⟨ty, .vlist []⟩) = .val true) ∧
    (∀ s ty, s ≠ [] →
      ty ∈ ["contains".data, "contains_all".data, "starts_with".data, "ends_with".data,
            "regex".data, "not_contains".data] →
      apply_filter none (some ⟨some ty, .vstr s⟩) = .raised) := by
  refine ⟨fun mt => rfl, fun mt ty => rfl, fun mt ty => rfl, ?_⟩
  intro s ty hs hty
  simp only [List.mem_cons, List.not_mem_nil, or_false] at hty
  cases s with
  | nil => exact absurd rfl hs
  | cons c cs =>
    rcases hty with rfl | rfl | rfl | rfl | rfl | rfl <;> rfl

/-- Witness for `filter_passthrough` at concrete inputs: empty terms pass
through even with missing text, and a missing text with non-empty `contains`
terms raises. -/
theorem filter_passthrough_witness :
    apply_filter none (some ⟨some "contains".data, .vstr []⟩) = .val true ∧
    apply_filter none (some ⟨some "regex".data, .vstr "x".data⟩) = .raised :=
  ⟨filter_passthrough.2.1 none (some "contains".data),
   filter_passthrough.2.2.2 "x".data "regex".data (by decide) (by decide)⟩

/-- C7 counterexample: the `regex` filter accepts pattern `ABC` against text
`abc` even though the literal pattern does not occur case-sensitively — the
source hardcodes `re.IGNORECASE`, and no case-insensitivity flag exists in
the filter configuration. -/
theorem regex_case_counterexample :
    apply_filter (some "abc".data) (some ⟨some "regex".data, .vstr "ABC".data⟩) = .val true ∧
    pyIn "ABC".data "abc".data = false := by
  decide

/-- C7 amended: `regex` filtering is always case-insensitive — its result only
depends on the lower-cased text, and equals the case-insensitive occurrence
check of the pattern in the text. -/
theorem regex_filter_case_insensitive (p t1 t2 : Str) (h : pyLower t1 = pyLower t2) :
    apply_filter (some t1) (some ⟨some "regex".data, .vstr p⟩) =
      apply_filter (some t2) (some ⟨some "regex".data, .vstr p⟩) ∧
    apply_filter (some t1) (some ⟨some "regex".data, .vstr p⟩) =
      .val (pyIn (pyLower p) (pyLower t1)) := by
  constructor
  · rw [apply_filter_regex_eq, apply_filter_regex_eq, h]
  · exact apply_filter_regex_eq p t1

/-- Witness for `regex_filter_case_insensitive`: `LEAK` against `leak` and
`LeAk`. -/
theorem regex_filter_case_insensitive_witness :
    apply_filter (some "leak".data) (some ⟨some "regex".data, .vstr "LEAK".data⟩) =
      apply_filter (some "LeAk".data) (some ⟨some "regex".data, .vstr "LEAK".data⟩) ∧
    apply_filter (some "leak".data) (some ⟨some "regex".data, .vstr "LEAK".data⟩) =
      .val (pyIn (pyLower "LEAK".data) (pyLower "leak".data)) :=
  regex_filter_case_insensitive "LEAK".data "leak".data "LeAk".data (by decide)

/-- C2: a live event whose channel has a stored cursor at least its message id
is dropped: no email is sent, no save happens, and the state (in particular
the stored cursor) is unchanged. -/
theorem replay_protection (cmap : List (Int × ChannelConfig)) (ev : Event) (st : BotState)
    (c : Nat) (hcur : lookupA st.cursors ev.chat_id = some c) (hle : ev.message.id ≤ c) :
    handle_new_message cmap ev st = ⟨st, 0, []⟩ := by
  unfold handle_new_message
  cases hcfg : lookupA cmap ev.chat_id with
  | none => simp [hcfg]
  | some config => simp [hcfg, hcur, hle]

/-- Witness for `replay_protection`: message id 40 against stored cursor 50. -/
theorem replay_protection_witness :
    handle_new_message cmapC evOld stC = ⟨stC, 0, []⟩ :=
  replay_protection cmapC evOld stC 50 (by decide) (by decide)

/-- C4: a live event from a monitored channel whose message id exceeds the
stored cursor (or whose channel has no cursor) advances the cursor to the
message id and saves exactly that updated state, whatever the message text or
filter outcome — the save happens before the text check and the filter. -/
theorem cursor_advances_regardless (cmap : List (Int × ChannelConfig)) (ev : Event)
    (st : BotState) (config : ChannelConfig)
    (hcfg : lookupA cmap ev.chat_id = some config)
    (hnew : ∀ c, lookupA st.cursors ev.chat_id = some c → c < ev.message.id) :
    (handle_new_message cmap ev st).state =
      ⟨st.initialized, insertA st.cursors ev.chat_id ev.message.id⟩ ∧
    (handle_new_message cmap ev st).saves =
      [⟨st.initialized, insertA st.cursors ev.chat_id ev.message.id⟩] ∧
    lookupA (handle_new_message cmap ev st).state.cursors ev.chat_id =
      some ev.message.id := by
  have hskip : (match lookupA st.cursors ev.chat_id with
      | some c => decide (ev.message.id ≤ c)
      | none => false) = false := by
    cases hc : lookupA st.cursors ev.chat_id with
    | none => rfl
    | some c =>
      simpa using Nat.not_le.2 (hnew c hc)
  have hres : handle_new_message cmap ev st =
      ⟨⟨st.initialized, insertA st.cursors ev.chat_id ev.message.id⟩,
       (handle_new_message cmap ev st).emails,
       [⟨st.initialized, insertA st.cursors ev.chat_id ev.message.id⟩]⟩ := by
    unfold handle_new_message
    simp only [hcfg, hskip]
    cases htext : (!textTruthy ev.message.text) with
    | true => simp [htext]
    | false =>
      simp only [htext, Bool.false_eq_true, if_false]
      cases happ : apply_filter ev.message.text config.filter with
      | val b => cases b <;> simp [happ]
      | raised => simp [happ]
  refine ⟨?_, ?_, ?_⟩
  · rw [hres]
  · rw [hres]
  · rw [hres]
    exact lookupA_insertA_self st.cursors ev.chat_id ev.message.id

/-- Witness for `cursor_advances_regardless`: message id 60 over cursor 50,
with text that the filter rejects — the cursor still advances to 60 and the
updated state is saved. -/
theorem cursor_advances_regardless_witness :
    (handle_new_message cmapC evNew stC).state =
      ⟨stC.initialized, insertA stC.cursors evNew.chat_id evNew.message.id⟩ ∧
    (handle_new_message cmapC evNew stC).saves =
      [⟨stC.initialized, insertA stC.cursors evNew.chat_id evNew.message.id⟩] ∧
    lookupA (handle_new_message cmapC evNew stC).state.cursors evNew.chat_id =
      some evNew.message.id :=
  cursor_advances_regardless cmapC evNew stC cfgC (by decide)
    (fun c hc => by
      have : c = 50 := by
        have h50 : lookupA stC.cursors evNew.chat_id = some 50 := by decide
        rw [h50] at hc
        exact (Option.some_inj.mp hc).symm
      simp [this, evNew])

/-- C1: when the resolved channel id is already in `initialized_channels`,
`initial_search` returns that id at once with the state unchanged and a quiet
trace: no keyword fetch, no recent fetch, no latest fetch, no sleep, no
email. -/
theorem backfill_idempotent (env : Env) (config : ChannelConfig) (st : BotState) (cid : Nat)
    (hconn : env.connected = true)
    (hres : env.resolve (cleanUsername config.username) = some cid)
    (hmem : (cid : Int) ∈ st.initialized) :
    initial_search env config st = ⟨some cid, st, SearchTrace.quiet⟩ := by
  unfold initial_search
  simp [hconn, hres, hmem, SearchTrace.quiet]

/-- Witness for `backfill_idempotent`: channel `alpha` (id 7) already
initialized in the state `⟨[7], [(7, 3)]⟩`. -/
theorem backfill_idempotent_witness :
    initial_search envA cfgA ⟨[7], [(7, 3)]⟩ = ⟨some 7, ⟨[7], [(7, 3)]⟩, SearchTrace.quiet⟩ :=
  backfill_idempotent envA cfgA ⟨[7], [(7, 3)]⟩ 7 rfl (by decide) (by decide)

theorem runKeywords_fetches_sleeps (env : Env) (cid limit : Nat) (fc : Option FilterConfig)
    (hconn : env.connected = true) :
    ∀ (kws : List Str) (acc : KwAcc),
      (runKeywords env cid limit fc kws acc).fetches = acc.fetches ++ kws ∧
      (runKeywords env cid limit fc kws acc).sleeps =
        acc.sleeps ++ kws.flatMap (fun kw => floodSleeps (env.search cid kw limit)) := by
  intro kws
  induction kws with
  | nil => intro acc; simp [runKeywords]
  | cons kw rest ih =>
    intro acc
    simp only [runKeywords, hconn, if_true]
    cases hs : env.search cid kw limit with
    | ok msgs => simp [hs, floodSleeps, ih, List.append_assoc]
    | flood fetched secs => simp [hs, floodSleeps, ih, List.append_assoc]
    | fail fetched => simp [hs, floodSleeps, ih, List.append_assoc]

/-- C9 counterexample: with keywords `a`, `b` and a 7-second flood wait raised
while fetching `a`, `initial_search` performs exactly one fetch for `a`
(never resuming it after the sleep) and then moves on to `b`; the sleep is
the signalled 7 seconds. -/
theorem floodwait_counterexample :
    (initial_search envB cfgB freshState).trace.fetches = ["a".data, "b".data] ∧
    (initial_search envB cfgB freshState).trace.fetches.count "a".data = 1 ∧
    (initial_search envB cfgB freshState).trace.sleeps = [7] := by
  decide

/-- C9 amended: during the keyword loop, a flood-wait signal causes a sleep of
exactly the signalled duration, after which the loop proceeds to the NEXT
keyword; every keyword is fetched exactly once, in order, and the sleeps are
exactly the flood durations signalled by the per-keyword fetches. -/
theorem floodwait_sleep_then_next_keyword (env : Env) (config : ChannelConfig)
    (st : BotState) (cid : Nat)
    (hconn : env.connected = true)
    (hres : env.resolve (cleanUsername config.username) = some cid)
    (hmem : (cid : Int) ∉ st.initialized)
    (hkw : extractSearchKeywords config.filter ≠ []) :
    (initial_search env config st).trace.fetches = extractSearchKeywords config.filter ∧
    (initial_search env config st).trace.sleeps =
      (extractSearchKeywords config.filter).flatMap
        (fun kw => floodSleeps (env.search cid kw (config.search_limit.getD 1000))) := by
  cases hl : extractSearchKeywords config.filter with
  | nil => exact absurd hl hkw
  | cons a as =>
    have h1 := runKeywords_fetches_sleeps env cid (config.search_limit.getD 1000)
      config.filter hconn (a :: as) ⟨[], [], [], []⟩
    unfold initial_search
    cases hlat : env.latest cid with
    | none => simp [hconn, hres, hmem, hl, hlat, h1.1, h1.2]
    | some m => simp [hconn, hres, hmem, hl, hlat, h1.1, h1.2]

/-- Witness for `floodwait_sleep_then_next_keyword` on the concrete flood
environment `envB`. -/
theorem floodwait_sleep_then_next_keyword_witness :
    (initial_search envB cfgB freshState).trace.fetches = extractSearchKeywords cfgB.filter ∧
    (initial_search envB cfgB freshState).trace.sleeps =
      (extractSearchKeywords cfgB.filter).flatMap
        (fun kw => floodSleeps (envB.search 9 kw (cfgB.search_limit.getD 1000))) :=
  floodwait_sleep_then_next_keyword envB cfgB freshState 9 rfl (by decide) (by decide)
    (by decide)

theorem setupStep_dual (env : Env) (acc : List (Int × ChannelConfig) × List Nat)
    (config : ChannelConfig)
    (h : ∀ cid : Nat, lookupA acc.1 (cid : Int) = lookupA acc.1 (eventIdOf cid)) :
    ∀ cid : Nat, lookupA (setupStep env acc config).1 (cid : Int) =
      lookupA (setupStep env acc config).1 (eventIdOf cid) := by
  intro cid
  unfold setupStep
  cases hres : env.resolve (cleanUsername config.username) with
  | none => exact h cid
  | some cid' =>
    cases hv : verify_membership env cid' with
    | false => simp [hv, h cid]
    | true =>
      simp only [hv, if_true]
      by_cases hc : cid = cid'
      · subst hc
        rw [lookupA_insertA_ne _ _ (natCast_ne_eventIdOf cid cid), lookupA_insertA_self,
            lookupA_insertA_self]
      · have h1 : (cid : Int) ≠ eventIdOf cid' := natCast_ne_eventIdOf cid cid'
        have h2 : (cid : Int) ≠ (cid' : Int) := by omega
        have h3 : eventIdOf cid ≠ (cid' : Int) := (natCast_ne_eventIdOf cid' cid).symm
        have h4 : eventIdOf cid ≠ eventIdOf cid' := fun hh => hc (eventIdOf_inj hh)
        rw [lookupA_insertA_ne _ _ h1, lookupA_insertA_ne _ _ h2,
            lookupA_insertA_ne _ _ h4, lookupA_insertA_ne _ _ h3]
        exact h cid

theorem setup_fold_dual (env : Env) :
    ∀ (configs : List ChannelConfig) (acc : List (Int × ChannelConfig) × List Nat),
      (∀ cid : Nat, lookupA acc.1 (cid : Int) = lookupA acc.1 (eventIdOf cid)) →
      ∀ cid : Nat,
        lookupA (configs.foldl (setupStep env) acc).1 (cid : Int) =
          lookupA (configs.foldl (setupStep env) acc).1 (eventIdOf cid) := by
  intro configs
  induction configs with
  | nil => intro acc h cid; exact h cid
  | cons cfg rest ih =>
    intro acc h cid
    exact ih (setupStep env acc cfg) (setupStep_dual env acc cfg h) cid

/-- C10: when `initial_search` records a cursor for a newly initialized
channel it stores the same latest-message id under the two distinct keys
`channel_id` and `-1000000000000 - channel_id`; and the realtime listener's
`channels_map` always gives equal results under the two encodings of any
channel id. -/
theorem dual_key_registration :
    (∀ (env : Env) (config : ChannelConfig) (st : BotState) (cid : Nat) (m : Msg),
      env.connected = true →
      env.resolve (cleanUsername config.username) = some cid →
      (cid : Int) ∉ st.initialized →
      env.latest cid = some m →
      (extractSearchKeywords config.filter ≠ [] ∨
        processRecent config.filter (env.recent cid) ≠ none) →
      (cid : Int) ≠ eventIdOf cid ∧
      lookupA (initial_search env config st).state.cursors (cid : Int) = some m.id ∧
      lookupA (initial_search env config st).state.cursors (eventIdOf cid) = some m.id) ∧
    (∀ (env : Env) (configs : List ChannelConfig) (cid : Nat),
      lookupA (setup_channels env configs).cmap (cid : Int) =
        lookupA (setup_channels env configs).cmap (eventIdOf cid)) := by
  constructor
  · intro env config st cid m hconn hres hmem hlat hrun
    refine ⟨natCast_ne_eventIdOf cid cid, ?_⟩
    have hstate : (initial_search env config st).state.cursors =
        insertA (insertA st.cursors (cid : Int) m.id) (eventIdOf cid) m.id := by
      unfold initial_search
      rcases hrun with hkw | hrec
      · cases hl : extractSearchKeywords config.filter with
        | nil => exact absurd hl hkw
        | cons a as => simp [hconn, hres, hmem, hl, hlat]
      · cases hl : extractSearchKeywords config.filter with
        | nil =>
          cases hpr : processRecent config.filter (env.recent cid) with
          | none => exact absurd hpr hrec
          | some matched => simp [hconn, hres, hmem, hl, hpr, hlat]
        | cons a as => simp [hconn, hres, hmem, hl, hlat]
    rw [hstate]
    constructor
    · rw [lookupA_insertA_ne _ _ (natCast_ne_eventIdOf cid cid)]
      exact lookupA_insertA_self _ _ _
    · exact lookupA_insertA_self _ _ _
  · intro env configs cid
    unfold setup_channels
    exact setup_fold_dual env configs ([], []) (fun _ => rfl) cid

/-- Witness for `dual_key_registration`: channel `alpha` (id 7), latest
message id 42, fresh state; and the one-config setup map. -/
theorem dual_key_registration_witness :
    (((7 : Nat) : Int) ≠ eventIdOf 7 ∧
      lookupA (initial_search envA cfgA freshState).state.cursors ((7 : Nat) : Int) =
        some msgA.id ∧
      lookupA (initial_search envA cfgA freshState).state.cursors (eventIdOf 7) =
        some msgA.id) ∧
    lookupA (setup_channels envA [cfgA]).cmap ((7 : Nat) : Int) =
      lookupA (setup_channels envA [cfgA]).cmap (eventIdOf 7) :=
  ⟨dual_key_registration.1 envA cfgA freshState 7 msgA rfl (by decide) (by decide) rfl
      (Or.inl (by decide)),
   dual_key_registration.2 envA [cfgA] 7⟩

theorem cursorsLE_refl (st : BotState) : cursorsLE st st :=
  fun _ c h => ⟨c, h, le_refl c⟩

theorem cursorsLE_of_cursors_eq {st st' : BotState} (h : st'.cursors = st.cursors) :
    cursorsLE st st' :=
  fun k c hk => ⟨c, by rw [h]; exact hk, le_refl c⟩

theorem cursorsLE_trans {a b c : BotState} (h1 : cursorsLE a b) (h2 : cursorsLE b c) :
    cursorsLE a c := by
  intro k x hx
  obtain ⟨y, hy, hxy⟩ := h1 k x hx
  obtain ⟨z, hz, hyz⟩ := h2 k y hy
  exact ⟨z, hz, le_trans hxy hyz⟩

theorem cursorsLE_insert1 {st st' : BotState} {k1 : Int} {v : Nat}
    (hc : st'.cursors = insertA st.cursors k1 v)
    (h1 : ∀ c, lookupA st.cursors k1 = some c → c ≤ v) :
    cursorsLE st st' := by
  intro k c hk
  rw [hc]
  by_cases e1 : k = k1
  · subst e1
    exact ⟨v, lookupA_insertA_self _ _ _, h1 c hk⟩
  · rw [lookupA_insertA_ne _ _ e1]
    exact ⟨c, hk, le_refl c⟩

theorem cursorsLE_insert2 {st st' : BotState} {k1 k2 : Int} {v : Nat}
    (hc : st'.cursors = insertA (insertA st.cursors k1 v) k2 v)
    (h1 : ∀ c, lookupA st.cursors k1 = some c → c ≤ v)
    (h2 : ∀ c, lookupA st.cursors k2 = some c → c ≤ v) :
    cursorsLE st st' := by
  intro k c hk
  rw [hc]
  by_cases e2 : k = k2
  · subst e2
    exact ⟨v, lookupA_insertA_self _ _ _, h2 c hk⟩
  · rw [lookupA_insertA_ne _ _ e2]
    by_cases e1 : k = k1
    · subst e1
      exact ⟨v, lookupA_insertA_self _ _ _, h1 c hk⟩
    · rw [lookupA_insertA_ne _ _ e1]
      exact ⟨c, hk, le_refl c⟩

theorem initial_search_cursors_cases (env : Env) (config : ChannelConfig) (st : BotState) :
    (initial_search env config st).state.cursors = st.cursors ∨
    ∃ cid m, env.resolve (cleanUsername config.username) = some cid ∧
      env.latest cid = some m ∧
      (initial_search env config st).state.cursors =
        insertA (insertA st.cursors (cid : Int) m.id) (eventIdOf cid) m.id := by
  unfold initial_search
  cases hconn : env.connected with
  | false => left; simp [hconn]
  | true =>
    cases hres : env.resolve (cleanUsername config.username) with
    | none => left; simp [hconn, hres]
    | some cid =>
      by_cases hmem : (cid : Int) ∈ st.initialized
      · left; simp [hconn, hres, hmem]
      · cases hlat : env.latest cid with
        | none =>
          left
          cases hl : extractSearchKeywords config.filter with
          | nil =>
            cases hpr : processRecent config.filter (env.recent cid) with
            | none => simp [hconn, hres, hmem, hl, hpr]
            | some matched => simp [hconn, hres, hmem, hl, hpr, hlat]
          | cons a as => simp [hconn, hres, hmem, hl, hlat]
        | some m =>
          cases hl : extractSearchKeywords config.filter with
          | nil =>
            cases hpr : processRecent config.filter (env.recent cid) with
            | none => left; simp [hconn, hres, hmem, hl, hpr]
            | some matched =>
              right
              exact ⟨cid, m, rfl, hlat, by simp [hconn, hres, hmem, hl, hpr, hlat]⟩
          | cons a as =>
            right
            exact ⟨cid, m, rfl, hlat, by simp [hconn, hres, hmem, hl, hlat]⟩

theorem handle_state_eq (cmap : List (Int × ChannelConfig)) (ev : Event) (st : BotState)
    (config : ChannelConfig)
    (hcfg : lookupA cmap ev.chat_id = some config)
    (hskip : (match lookupA st.cursors ev.chat_id with
      | some c => decide (ev.message.id ≤ c)
      | none => false) = false) :
    (handle_new_message cmap ev st).state =
      ⟨st.initialized, insertA st.cursors ev.chat_id ev.message.id⟩ := by
  unfold handle_new_message
  simp only [hcfg, hskip]
  cases htext : (!textTruthy ev.message.text) with
  | true => simp [htext]
  | false =>
    simp only [htext, Bool.false_eq_true, if_false]
    cases happ : apply_filter ev.message.text config.filter with
    | val b => cases b <;> simp [happ]
    | raised => simp [happ]

theorem applyOp_cursorsLE (st : BotState) (op : Op) (hv : OpValid st op) :
    cursorsLE st (applyOp st op) := by
  cases op with
  | search env config =>
    rcases initial_search_cursors_cases env config st with h | ⟨cid, m, hres, hlat, h⟩
    · exact cursorsLE_of_cursors_eq h
    · have hb := hv cid m hres hlat
      exact cursorsLE_insert2 h hb.1 hb.2
  | live cmap ev =>
    cases hcfg : lookupA cmap ev.chat_id with
    | none =>
      apply cursorsLE_of_cursors_eq
      unfold applyOp handle_new_message
      simp [hcfg]
    | some config =>
      cases hc : lookupA st.cursors ev.chat_id with
      | some c =>
        by_cases hle : ev.message.id ≤ c
        · apply cursorsLE_of_cursors_eq
          unfold applyOp handle_new_message
          simp [hcfg, hc, hle]
        · have hskip : (match lookupA st.cursors ev.chat_id with
              | some c => decide (ev.message.id ≤ c)
              | none => false) = false := by
            simp [hc, hle]
          have hst := handle_state_eq cmap ev st config hcfg hskip
          have hcc : (applyOp st (Op.live cmap ev)).cursors =
              insertA st.cursors ev.chat_id ev.message.id := by
            show (handle_new_message cmap ev st).state.cursors = _
            rw [hst]
          refine cursorsLE_insert1 hcc ?_
          intro c' hc'
          rw [hc] at hc'
          injection hc' with h'
          omega
      | none =>
        have hskip : (match lookupA st.cursors ev.chat_id with
            | some c => decide (ev.message.id ≤ c)
            | none => false) = false := by
          simp [hc]
        have hst := handle_state_eq cmap ev st config hcfg hskip
        have hcc : (applyOp st (Op.live cmap ev)).cursors =
            insertA st.cursors ev.chat_id ev.message.id := by
          show (handle_new_message cmap ev st).state.cursors = _
          rw [hst]
        refine cursorsLE_insert1 hcc ?_
        intro c' hc'
        rw [hc] at hc'
        cases hc'

/-- C3: across any sequence of `initial_search` and `handle_new_message`
operations, each valid under the assumption that platform message ids within
a channel are non-decreasing over time, every stored cursor persists and
never decreases. -/
theorem cursor_monotonic (st : BotState) (ops : List Op) (h : ValidSeq st ops) :
    cursorsLE st (applyOps st ops) := by
  induction h with
  | nil st => exact cursorsLE_refl st
  | cons hv hseq ih => exact cursorsLE_trans (applyOp_cursorsLE _ _ hv) ih

/-- Witness for `cursor_monotonic`: one live event over the concrete state
`stC`. -/
theorem cursor_monotonic_witness :
    cursorsLE stC (applyOps stC [Op.live cmapC evNew]) :=
  cursor_monotonic stC [Op.live cmapC evNew]
    (ValidSeq.cons trivial (ValidSeq.nil _))

theorem prefix_length_lt {l1 l2 : List Int} (h : l1 <+: l2) (hne : l1 ≠ l2) :
    l1.length < l2.length := by
  rcases lt_or_eq_of_le h.length_le with hlt | heq
  · exact hlt
  · exact absurd (h.eq_of_length heq) hne

/-- C8 counterexample: a concrete `save_state` call performs no rename at all
and opens the state file itself for writing — there is no
write-to-temp-then-rename step. -/
theorem save_state_no_rename_counterexample :
    usesTempRename STATE_FILE (save_state_ops ⟨[5], [(5, 10)]⟩) = false ∧
    FileOp.openWrite STATE_FILE ∈ save_state_ops ⟨[5], [(5, 10)]⟩ ∧
    FileOp.writeData STATE_FILE (serialize ⟨[5], [(5, 10)]⟩) ∈ save_state_ops ⟨[5], [(5, 10)]⟩ := by
  decide

/-- C8 amended: `save_state` writes the pickled state directly into the state
file (mkdir, open-for-write, write), with no temporary file and no rename; a
crash mid-write can therefore leave a truncated blob, but any strict prefix
of the serialized state fails to deserialize and `_load_state` then falls
back to the fresh empty state, so a partial file is still never read back as
valid state. -/
theorem save_state_not_atomic (st : BotState) :
    usesTempRename STATE_FILE (save_state_ops st) = false ∧
    save_state_ops st =
      [FileOp.makedirs "sessions".data, FileOp.openWrite STATE_FILE,
       FileOp.writeData STATE_FILE (serialize st)] ∧
    (∀ pre, pre <+: serialize st → pre ≠ serialize st → load_state (some pre) = freshState) := by
  refine ⟨rfl, rfl, ?_⟩
  intro pre hpre hne
  simp only [serialize] at hpre hne
  cases pre with
  | nil => rfl
  | cons x xs =>
    rw [List.cons_prefix_cons] at hpre
    obtain ⟨hx, hxs⟩ := hpre
    subst hx
    have hxsne : xs ≠ encodePayload st := fun hh => hne (by rw [hh])
    have hlt : xs.length < (encodePayload st).length := prefix_length_lt hxs hxsne
    have hni : ¬ ((xs.length : Int) = ((encodePayload st).length : Int)) := by omega
    simp [load_state, deserialize, hni]

/-- Witness for `save_state_not_atomic`: the state `⟨[3], [(3, 4)]⟩`
serializes to `[4, 1, 3, 3, 4]`; its strict prefix `[4]` loads as the fresh
state. -/
theorem save_state_not_atomic_witness :
    usesTempRename STATE_FILE (save_state_ops ⟨[3], [(3, 4)]⟩) = false ∧
    load_state (some [(4 : Int)]) = freshState :=
  ⟨(save_state_not_atomic ⟨[3], [(3, 4)]⟩).1,
   (save_state_not_atomic ⟨[3], [(3, 4)]⟩).2.2 [(4 : Int)]
     ⟨[1, 3, 3, 4], by decide⟩ (by decide)⟩
